import Mathlib

/-!
Verification of the `copoll` epoll wrapper (src/src/lib.rs) against its
natural-language specification.  The Rust code is shallowly embedded:
bitmasks become `Nat` with explicit bitwise operations, the kernel watch
set addressed through `epoll_ctl` becomes an association list, and the
external `epoll_wait` call becomes an oracle parameter of `poll`.
-/

namespace Copoll

/-- Interest enum from lib.rs: which readiness transitions the caller wants. -/
inductive Interest
  | Readable
  | Writable
  | Both
deriving DecidableEq

/-- Mode enum from lib.rs: triggering semantics for the fd. -/
inductive Mode
  | Level
  | Edge
  | OneShot
deriving DecidableEq

/-- Readiness struct from lib.rs: three independent booleans decoded from the
native bitmask. -/
structure Readiness where
  readable : Bool
  writable : Bool
  error : Bool
deriving DecidableEq

/-- Token newtype from lib.rs: `pub struct Token(pub usize)`.  The usize range
invariant (`val < 2^64` on the 64-bit target) is carried as a hypothesis where
it matters. -/
structure Token where
  val : Nat
deriving DecidableEq

/-- Native flag bit EPOLLIN (0x001), from the libc values used by the nix crate. -/
def EPOLLIN : Nat := 1

/-- Native flag bit EPOLLOUT (0x004). -/
def EPOLLOUT : Nat := 4

/-- Native flag bit EPOLLERR (0x008). -/
def EPOLLERR : Nat := 8

/-- Native flag bit EPOLLHUP (0x010): hangup condition reported by the kernel. -/
def EPOLLHUP : Nat := 16

/-- Native flag bit EPOLLONESHOT (0x40000000). -/
def EPOLLONESHOT : Nat := 1073741824

/-- Native flag bit EPOLLET (0x80000000): edge-triggered notifications. -/
def EPOLLET : Nat := 2147483648

/-- Bitflags `contains` as used by `EpollFlags::contains` in lib.rs:
all bits of `bit` are present in `flags`. -/
def epollContains (flags bit : Nat) : Bool := flags &&& bit == bit

/-- Embedding of `make_flags` (lib.rs lines 58-77): start from the empty flag
set, or in the interest bits, then or in the mode bit. -/
def make_flags (interest : Interest) (mode : Mode) : Nat :=
  let flags : Nat := 0
  let flags : Nat :=
    match interest with
    | .Readable => flags ||| EPOLLIN
    | .Writable => flags ||| EPOLLOUT
    | .Both => (flags ||| EPOLLIN) ||| EPOLLOUT
  let flags : Nat :=
    match mode with
    | .Level => flags
    | .Edge => flags ||| EPOLLET
    | .OneShot => flags ||| EPOLLONESHOT
  flags

/-- Embedding of `flags_to_readiness` (lib.rs lines 79-85). -/
def flags_to_readiness (flags : Nat) : Readiness :=
  { readable := epollContains flags EPOLLIN
  , writable := epollContains flags EPOLLOUT
  , error := epollContains flags EPOLLERR }

/-- Spec-side decode table for the round-trip property (spec section 8):
Readable recovers {readable, not writable}, Writable the reverse, Both sets
both; the error field is never produced by an encoded interest. -/
def interestReadiness : Interest → Readiness
  | .Readable => ⟨true, false, false⟩
  | .Writable => ⟨false, true, false⟩
  | .Both => ⟨true, true, false⟩

/-- Spec-side encoder written from the words of spec section 4.1: readable bit
for Readable or Both, writable bit for Writable or Both, no extra bit for
Level, the edge-trigger bit for Edge, the one-shot bit for OneShot. -/
def toNativeFlags_spec (interest : Interest) (mode : Mode) : Nat :=
  (match interest with
   | .Readable => EPOLLIN
   | .Writable => EPOLLOUT
   | .Both => EPOLLIN ||| EPOLLOUT) |||
  (match mode with
   | .Level => 0
   | .Edge => EPOLLET
   | .OneShot => EPOLLONESHOT)

/-- Spec-side decoder written from the words of spec section 4.1, phrased with
bit positions: readable is bit 0 (EPOLLIN), writable is bit 2 (EPOLLOUT),
error is bit 3 (EPOLLERR). -/
def fromNativeFlags_spec (flags : Nat) : Readiness :=
  { readable := flags.testBit 0
  , writable := flags.testBit 2
  , error := flags.testBit 3 }

/-- True when the native mask reports an error or a hangup condition, the
wording of the claim for the error field (EPOLLERR is bit 3, EPOLLHUP bit 4). -/
def errorOrHangup (flags : Nat) : Bool := flags.testBit 3 || flags.testBit 4

/-- Does the interest ask for readable notifications. -/
def interestWantsRead : Interest → Bool
  | .Readable => true
  | .Writable => false
  | .Both => true

/-- Does the interest ask for writable notifications. -/
def interestWantsWrite : Interest → Bool
  | .Readable => false
  | .Writable => true
  | .Both => true

/-- Bool test for the Edge constructor. -/
def isEdge : Mode → Bool
  | .Edge => true
  | _ => false

/-- Bool test for the OneShot constructor. -/
def isOneShot : Mode → Bool
  | .OneShot => true
  | _ => false

/-- Union of every bit `make_flags` is allowed to produce. -/
def EPOLL_KNOWN_MASK : Nat := EPOLLIN ||| EPOLLOUT ||| EPOLLET ||| EPOLLONESHOT

/-- Bitflags containment of a single-bit mask agrees with `Nat.testBit`. -/
theorem epollContains_two_pow (f k : Nat) : epollContains f (2 ^ k) = f.testBit k := by
  unfold epollContains
  rw [Nat.and_two_pow]
  cases h : f.testBit k
  · have hpos : 0 < 2 ^ k := Nat.pos_pow_of_pos k (by decide)
    simp [Bool.toNat]
    omega
  · simp [Bool.toNat]

/-- C1: decoding the encoded flags recovers exactly the requested interest
(Readable gives readable only, Writable gives writable only, Both gives both),
independently of the mode argument. -/
theorem roundtrip_recovers_interest :
    ∀ (i : Interest) (m : Mode),
      flags_to_readiness (make_flags i m) = interestReadiness i := by
  intro i m
  cases i <;> cases m <;> rfl

/-- C5 counterexample: a native mask reporting only a hangup condition
(EPOLLHUP) does not set the decoded error field, although the claim requires
error to be true whenever an error or hangup condition is reported. -/
theorem hangup_not_reported_as_error :
    errorOrHangup EPOLLHUP = true ∧ (flags_to_readiness EPOLLHUP).error = false := by
  constructor
  · decide
  · decide

/-- C5 amended: the decoder matches the spec section 4.1 table exactly:
readable iff the readable bit is set, writable iff the writable bit is set,
error iff the EPOLLERR bit is set (hangup does not contribute). -/
theorem decode_matches_spec_bits :
    ∀ flags : Nat, flags_to_readiness flags = fromNativeFlags_spec flags := by
  intro flags
  unfold flags_to_readiness fromNativeFlags_spec
  rw [show EPOLLIN = 2 ^ 0 from rfl, show EPOLLOUT = 2 ^ 2 from rfl,
    show EPOLLERR = 2 ^ 3 from rfl,
    epollContains_two_pow, epollContains_two_pow, epollContains_two_pow]

/-- C8: the encoder sets the readable bit iff interest is Readable or Both,
the writable bit iff Writable or Both, exactly the mode bit for Edge and
OneShot and nothing for Level, and never any bit outside the four known bits;
every interest and mode combination is accepted. -/
theorem make_flags_encoding :
    ∀ (i : Interest) (m : Mode),
      make_flags i m = toNativeFlags_spec i m
      ∧ (make_flags i m).testBit 0 = interestWantsRead i
      ∧ (make_flags i m).testBit 2 = interestWantsWrite i
      ∧ (make_flags i m).testBit 31 = isEdge m
      ∧ (make_flags i m).testBit 30 = isOneShot m
      ∧ make_flags i m &&& EPOLL_KNOWN_MASK = make_flags i m := by
  intro i m
  cases i <;> cases m <;> exact ⟨rfl, by decide, by decide, by decide, by decide, by decide⟩

/-- Rust std Duration: seconds (u64) and a sub-second nanosecond part
(invariant `nanos < 10^9`, carried as a hypothesis where needed). -/
structure Duration where
  secs : Nat
  nanos : Nat
deriving DecidableEq

/-- Rust `Duration::as_millis`: the whole number of milliseconds, computed in
u128 so no overflow occurs before the cast at the call site. -/
def Duration.as_millis (d : Duration) : Nat := d.secs * 1000 + d.nanos / 1000000

/-- Rust `Duration::as_nanos`: total nanoseconds, used to state that a
duration is positive. -/
def Duration.as_nanos (d : Duration) : Nat := d.secs * 1000000000 + d.nanos

/-- Rust cast `as isize` applied to a u128 value on the 64-bit target:
truncate to the low 64 bits and reinterpret in two's complement. -/
def u128_as_isize (n : Nat) : Int :=
  let low : Nat := n % 2 ^ 64
  if low < 2 ^ 63 then (low : Int) else (low : Int) - 2 ^ 64

/-- Embedding of the timeout computation in `Epoll::poll` (lib.rs line 109):
`timeout.map(.as_millis() as isize).unwrap_or(-1)`. -/
def computeTimeout : Option Duration → Int
  | none => -1
  | some d => u128_as_isize d.as_millis

/-- Meaning of the millisecond timeout argument of the native wait. -/
inductive WaitBound
  | indefinite
  | immediate
  | bounded (ms : Nat)
deriving DecidableEq

/-- Interpretation of the native wait timeout, from the native epoll contract
as restated in spec section 4.2: a negative value blocks indefinitely, zero
returns immediately with whatever is ready, a positive value caps the wait at
that many milliseconds. -/
def timeoutMeaning (t : Int) : WaitBound :=
  if t < 0 then .indefinite else if t = 0 then .immediate else .bounded t.toNat

/-- Errno values surfaced by the nix calls in lib.rs.  The spec names them
AlreadyRegistered (EEXIST), NotRegistered (ENOENT) and Interrupted (EINTR). -/
inductive Errno
  | EINTR
  | EEXIST
  | ENOENT
  | EINVAL
  | EFAULT
  | EBADF
deriving DecidableEq

/-- Native event record, nix `EpollEvent`: the flag bitmask together with the
opaque 64-bit user data field. -/
structure EpollEvent where
  events : Nat
  data : Nat
deriving DecidableEq

/-- Constructor `EpollEvent::new(events, data)`. -/
def EpollEvent.new (events : Nat) (data : Nat) : EpollEvent := ⟨events, data⟩

/-- Vec clear as called on the events buffer at lib.rs line 111: discards
every element the caller left in the buffer. -/
def vecClear (_xs : List EpollEvent) : List EpollEvent := []

/-- Behaviour of the external nix `epoll_wait` call: given the millisecond
timeout and the length of the slice handed to it (the cleared buffer), the
kernel either fails with an errno or yields the list of events it wrote; the
oracle is left abstract because it is environment, not repository code. -/
abbrev EpollWait := Int → Nat → Except Errno (List EpollEvent)

/-- Embedding of `Epoll::poll` (lib.rs lines 103-123): compute the millisecond
timeout, clear the caller buffer, perform one `epoll_wait` call propagating
any error with the question mark operator, then set the buffer length to the
returned event count, so the buffer holds exactly the events of this call.
The returned pair is the Ok unit value of the Rust function together with the
final contents of the caller buffer. -/
def Epoll.poll (wait : EpollWait) (events : List EpollEvent)
    (timeout : Option Duration) : Except Errno (Unit × List EpollEvent) :=
  let t : Int := computeTimeout timeout
  let cleared : List EpollEvent := vecClear events
  match wait t cleared.length with
  | .error e => .error e
  | .ok written => .ok ((), written)

/-- C2 counterexample: when the native wait is interrupted (EINTR), poll
surfaces the Interrupted error to the caller instead of retrying the wait. -/
theorem poll_surfaces_eintr :
    Epoll.poll (fun _ _ => .error .EINTR) [] none = .error .EINTR := rfl

/-- C2 amended: poll performs the native wait exactly once and propagates any
wait error, including EINTR, to the caller unchanged; there is no internal
retry with a remaining timeout. -/
theorem poll_propagates_wait_error :
    ∀ (wait : EpollWait) (buf : List EpollEvent) (timeout : Option Duration) (e : Errno),
      wait (computeTimeout timeout) 0 = .error e →
      Epoll.poll wait buf timeout = .error e := by
  intro wait buf timeout e h
  simp only [Epoll.poll, vecClear, List.length_nil]
  rw [h]

/-- C2 amended witness: instantiated at a wait that reports EINTR. -/
theorem poll_propagates_wait_error_witness :
    Epoll.poll (fun _ _ => .error .EINTR) [EpollEvent.new 1 5] (some ⟨0, 0⟩) = .error .EINTR :=
  poll_propagates_wait_error (fun _ _ => .error .EINTR) [EpollEvent.new 1 5] (some ⟨0, 0⟩)
    .EINTR rfl

/-- C3 counterexample: a strictly positive duration of half a millisecond is
truncated by `as_millis` to zero, so poll passes 0 to the native wait and
returns immediately instead of performing a bounded positive wait. -/
theorem submillisecond_timeout_immediate :
    0 < Duration.as_nanos ⟨0, 500000⟩
    ∧ computeTimeout (some ⟨0, 500000⟩) = 0
    ∧ timeoutMeaning (computeTimeout (some ⟨0, 500000⟩)) = .immediate := by
  refine ⟨by decide, by decide, by decide⟩

/-- C3 amended: a missing timeout maps to -1 and waits indefinitely; a
duration of less than one millisecond (including zero) maps to 0 and returns
immediately; a duration whose whole-millisecond count is positive and below
2^63 bounds the wait by that count. -/
theorem timeout_semantics :
    timeoutMeaning (computeTimeout none) = .indefinite
    ∧ (∀ d : Duration, d.as_millis = 0 →
        timeoutMeaning (computeTimeout (some d)) = .immediate)
    ∧ (∀ d : Duration, 0 < d.as_millis → d.as_millis < 2 ^ 63 →
        timeoutMeaning (computeTimeout (some d)) = .bounded d.as_millis) := by
  refine ⟨rfl, ?_, ?_⟩
  · intro d h
    simp only [computeTimeout, u128_as_isize, h]
    decide
  · intro d h1 h2
    have hlt : d.as_millis % 2 ^ 64 = d.as_millis := Nat.mod_eq_of_lt (by omega)
    simp only [computeTimeout, u128_as_isize, hlt, if_pos h2, timeoutMeaning]
    rw [if_neg (by omega), if_neg (by omega)]
    simp

/-- C3 amended witness: a zero duration returns immediately and a one-second
duration bounds the wait by 1000 milliseconds. -/
theorem timeout_semantics_witness :
    timeoutMeaning (computeTimeout (some ⟨0, 0⟩)) = .immediate
    ∧ timeoutMeaning (computeTimeout (some ⟨1, 0⟩)) = .bounded 1000 :=
  ⟨timeout_semantics.2.1 ⟨0, 0⟩ (by decide),
    timeout_semantics.2.2 ⟨1, 0⟩ (by decide) (by decide)⟩

/-- C7 counterexample: two runs of poll whose native waits deliver different
event batches produce the same result value (the Ok unit), so the batch of
events is not carried in the result value of poll; it reaches the caller only
through the events buffer argument. -/
theorem poll_result_value_carries_no_events :
    Except.map Prod.fst (Epoll.poll (fun _ _ => .ok [EpollEvent.new EPOLLIN 7]) [] none)
      = Except.map Prod.fst (Epoll.poll (fun _ _ => .ok []) [] none)
    ∧ Epoll.poll (fun _ _ => .ok [EpollEvent.new EPOLLIN 7]) [] none
        = .ok ((), [EpollEvent.new EPOLLIN 7])
    ∧ Epoll.poll (fun _ _ => .ok []) [] none = .ok ((), []) :=
  ⟨rfl, rfl, rfl⟩

/-- C7 amended: poll takes the mutable events buffer and an optional timeout;
on success its result value is the unit of io Result, and the events of the
wait are communicated by rewriting the caller buffer. -/
theorem poll_returns_unit_events_in_buffer :
    ∀ (wait : EpollWait) (buf : List EpollEvent) (timeout : Option Duration)
      (evs : List EpollEvent),
      wait (computeTimeout timeout) 0 = .ok evs →
      Except.map Prod.fst (Epoll.poll wait buf timeout) = .ok ()
      ∧ Epoll.poll wait buf timeout = .ok ((), evs) := by
  intro wait buf timeout evs h
  simp only [Epoll.poll, vecClear, List.length_nil]
  rw [h]
  exact ⟨rfl, rfl⟩

/-- C7 amended witness: instantiated at a wait delivering one event. -/
theorem poll_returns_unit_events_in_buffer_witness :
    Except.map Prod.fst
      (Epoll.poll (fun _ _ => .ok [EpollEvent.new 4 9]) [EpollEvent.new 1 1] none) = .ok ()
    ∧ Epoll.poll (fun _ _ => .ok [EpollEvent.new 4 9]) [EpollEvent.new 1 1] none
        = .ok ((), [EpollEvent.new 4 9]) :=
  poll_returns_unit_events_in_buffer (fun _ _ => .ok [EpollEvent.new 4 9])
    [EpollEvent.new 1 1] none [EpollEvent.new 4 9] rfl

/-- C9: when the native wait elapses with no descriptor ready (the kernel
reports zero events), poll succeeds with an empty event buffer rather than
returning an error. -/
theorem poll_timeout_empty_success :
    ∀ (wait : EpollWait) (buf : List EpollEvent) (timeout : Option Duration),
      wait (computeTimeout timeout) 0 = .ok [] →
      Epoll.poll wait buf timeout = .ok ((), []) := by
  intro wait buf timeout h
  simp only [Epoll.poll, vecClear, List.length_nil]
  rw [h]

/-- C9 witness: instantiated at a wait that reports zero events. -/
theorem poll_timeout_empty_success_witness :
    Epoll.poll (fun _ _ => .ok []) [EpollEvent.new 1 2] (some ⟨0, 0⟩) = .ok ((), []) :=
  poll_timeout_empty_success (fun _ _ => .ok []) [EpollEvent.new 1 2] (some ⟨0, 0⟩) rfl

/-- C10: poll clears the caller buffer before waiting, so its outcome is
independent of whatever the buffer held before the call, and on success the
buffer holds exactly the events delivered by the wait of this call, never a
leftover event of a previous call. -/
theorem poll_clears_buffer :
    ∀ (wait : EpollWait) (timeout : Option Duration) (old fresh : List EpollEvent),
      Epoll.poll wait old timeout = Epoll.poll wait fresh timeout
      ∧ (∀ evs : List EpollEvent, wait (computeTimeout timeout) 0 = .ok evs →
          Epoll.poll wait old timeout = .ok ((), evs)) := by
  intro wait timeout old fresh
  constructor
  · rfl
  · intro evs h
    simp only [Epoll.poll, vecClear, List.length_nil]
    rw [h]

/-- C10 witness: a stale event left in the buffer does not survive a poll
that delivers a different batch. -/
theorem poll_clears_buffer_witness :
    Epoll.poll (fun _ _ => .ok [EpollEvent.new 4 9]) [EpollEvent.new 1 1] none
      = Epoll.poll (fun _ _ => .ok [EpollEvent.new 4 9]) [] none
    ∧ Epoll.poll (fun _ _ => .ok [EpollEvent.new 4 9]) [EpollEvent.new 1 1] none
        = .ok ((), [EpollEvent.new 4 9]) :=
  ⟨(poll_clears_buffer (fun _ _ => .ok [EpollEvent.new 4 9]) none
      [EpollEvent.new 1 1] []).1,
    (poll_clears_buffer (fun _ _ => .ok [EpollEvent.new 4 9]) none
      [EpollEvent.new 1 1] []).2 [EpollEvent.new 4 9] rfl⟩

/-- From Token for usize (lib.rs lines 88-92): expose the wrapped value. -/
def usize_from_token (t : Token) : Nat := t.val

/-- Rust cast `as u64` applied to a usize at the register call sites. -/
def usize_as_u64 (n : Nat) : Nat := n % 2 ^ 64

/-- Rust cast `as usize` applied to the u64 data field in `event::token`. -/
def u64_as_usize (n : Nat) : Nat := n % 2 ^ 64

/-- Embedding of `event::token` (lib.rs lines 180-182): read the user data
field back as a Token. -/
def event.token (e : EpollEvent) : Token := ⟨u64_as_usize e.data⟩

/-- Embedding of `event::readiness` (lib.rs lines 185-187). -/
def event.readiness (e : EpollEvent) : Readiness := flags_to_readiness e.events

/-- Operation selector of nix `epoll_ctl`, as used in lib.rs. -/
inductive EpollOp
  | EpollCtlAdd
  | EpollCtlMod
  | EpollCtlDel
deriving DecidableEq

/-- Kernel watch set of one epoll instance: each watched descriptor with the
interest flags and user data stored for it. -/
abbrev WatchSet := List (Int × EpollEvent)

/-- Is the descriptor present in the watch set. -/
def watchHas (s : WatchSet) (fd : Int) : Bool := s.any (fun p => p.1 == fd)

/-- Stored event record of a descriptor, when present. -/
def watchGet (s : WatchSet) (fd : Int) : Option EpollEvent :=
  Option.map Prod.snd (List.find? (fun p => p.1 == fd) s)

/-- Modelled from the epoll_ctl(2) kernel contract that the nix call in
lib.rs invokes (the kernel is environment, not repository code): ADD on a
descriptor already watched fails with EEXIST, MOD and DEL on an absent
descriptor fail with ENOENT, ADD and MOD record the supplied event for the
descriptor, and every failing call leaves the watch set unchanged.  The
result pairs the errno outcome with the watch set after the call. -/
def epoll_ctl (s : WatchSet) (op : EpollOp) (fd : Int) (event : Option EpollEvent) :
    Except Errno Unit × WatchSet :=
  match op, event with
  | .EpollCtlAdd, none => (.error .EFAULT, s)
  | .EpollCtlAdd, some ev =>
      if watchHas s fd then (.error .EEXIST, s) else (.ok (), (fd, ev) :: s)
  | .EpollCtlMod, none => (.error .EFAULT, s)
  | .EpollCtlMod, some ev =>
      if watchHas s fd then
        (.ok (), s.map (fun p => if p.1 == fd then (fd, ev) else p))
      else (.error .ENOENT, s)
  | .EpollCtlDel, _ =>
      if watchHas s fd then (.ok (), s.filter (fun p => p.1 != fd))
      else (.error .ENOENT, s)

/-- Embedding of `Epoll::register` (lib.rs lines 126-136): build the event
record from the encoded flags and the token cast to u64, then issue ADD. -/
def Epoll.register (s : WatchSet) (fd : Int) (token : Token)
    (interest : Interest) (mode : Mode) : Except Errno Unit × WatchSet :=
  let event := EpollEvent.new (make_flags interest mode) (usize_as_u64 (usize_from_token token))
  epoll_ctl s .EpollCtlAdd fd (some event)

/-- Embedding of `Epoll::reregister` (lib.rs lines 140-150): same event
construction as register, issued as MOD. -/
def Epoll.reregister (s : WatchSet) (fd : Int) (token : Token)
    (interest : Interest) (mode : Mode) : Except Errno Unit × WatchSet :=
  let event := EpollEvent.new (make_flags interest mode) (usize_as_u64 (usize_from_token token))
  epoll_ctl s .EpollCtlMod fd (some event)

/-- Embedding of `Epoll::unregister` (lib.rs lines 153-158): DEL with no
event record. -/
def Epoll.unregister (s : WatchSet) (fd : Int) : Except Errno Unit × WatchSet :=
  epoll_ctl s .EpollCtlDel fd none

/-- Lookup of a descriptor at the head of the watch set yields the head
record. -/
theorem watchGet_cons_self (fd : Int) (ev : EpollEvent) (s : WatchSet) :
    watchGet ((fd, ev) :: s) fd = some ev := by
  have h : List.find? (fun q : Int × EpollEvent => q.1 == fd) ((fd, ev) :: s)
      = some (fd, ev) := by
    apply List.find?_cons_of_pos
    simp
  unfold watchGet
  rw [h]
  rfl

/-- Lookup skips a head entry for a different descriptor. -/
theorem watchGet_cons_ne (p : Int × EpollEvent) (s : WatchSet) (fd : Int)
    (hp : (p.1 == fd) = false) :
    watchGet (p :: s) fd = watchGet s fd := by
  have h : List.find? (fun q : Int × EpollEvent => q.1 == fd) (p :: s)
      = List.find? (fun q : Int × EpollEvent => q.1 == fd) s := by
    apply List.find?_cons_of_neg
    simp [hp]
  unfold watchGet
  rw [h]

/-- Updating the entry of a watched descriptor makes its lookup return the
new event record. -/
theorem watchGet_update (s : WatchSet) (fd : Int) (ev : EpollEvent)
    (h : watchHas s fd = true) :
    watchGet (s.map (fun p => if p.1 == fd then (fd, ev) else p)) fd = some ev := by
  induction s with
  | nil => simp [watchHas] at h
  | cons p rest ih =>
    by_cases hp : (p.1 == fd) = true
    · simp only [List.map_cons, if_pos hp]
      exact watchGet_cons_self fd ev _
    · have hrest : watchHas rest fd = true := by
        simp only [watchHas, List.any_cons, Bool.or_eq_true] at h
        rcases h with h | h
        · exact absurd h hp
        · simpa [watchHas] using h
      simp only [List.map_cons, if_neg hp]
      rw [watchGet_cons_ne p _ fd (by simpa using hp)]
      exact ih hrest

/-- C4: register on an already watched descriptor fails with EEXIST (the
error the spec names AlreadyRegistered), reregister on an unwatched
descriptor fails with ENOENT (NotRegistered), unregister on an absent
descriptor fails with ENOENT, and each failure leaves the watch set
unchanged. -/
theorem ctl_error_cases :
    ∀ (s : WatchSet) (fd : Int) (t : Token) (i : Interest) (m : Mode),
      (watchHas s fd = true → Epoll.register s fd t i m = (.error .EEXIST, s))
      ∧ (watchHas s fd = false → Epoll.reregister s fd t i m = (.error .ENOENT, s))
      ∧ (watchHas s fd = false → Epoll.unregister s fd = (.error .ENOENT, s)) := by
  intro s fd t i m
  refine ⟨?_, ?_, ?_⟩ <;> intro h <;>
    simp [Epoll.register, Epoll.reregister, Epoll.unregister, epoll_ctl, h]

/-- C4 witness: concrete watch sets exercising all three failure cases. -/
theorem ctl_error_cases_witness :
    Epoll.register [(3, EpollEvent.new 1 7)] 3 ⟨7⟩ .Readable .Level
        = (.error .EEXIST, [(3, EpollEvent.new 1 7)])
    ∧ Epoll.reregister [] 5 ⟨7⟩ .Readable .Level = (.error .ENOENT, [])
    ∧ Epoll.unregister [] 5 = (.error .ENOENT, []) :=
  ⟨(ctl_error_cases [(3, EpollEvent.new 1 7)] 3 ⟨7⟩ .Readable .Level).1 (by decide),
    (ctl_error_cases [] 5 ⟨7⟩ .Readable .Level).2.1 (by decide),
    (ctl_error_cases [] 5 ⟨7⟩ .Readable .Level).2.2 (by decide)⟩

/-- C6: for every token in the usize range, decoding the user data stored at
registration is the identity: the event record built by register and
reregister carries the token verbatim, a successful register stores exactly
that record for the descriptor, and a successful reregister replaces the
stored record, so the token read from any notification carrying the stored
data equals the token most recently supplied. -/
theorem token_roundtrip :
    ∀ (s : WatchSet) (fd : Int) (t : Token) (i : Interest) (m : Mode),
      t.val < 2 ^ 64 →
      event.token (EpollEvent.new (make_flags i m) (usize_as_u64 (usize_from_token t))) = t
      ∧ (watchHas s fd = false →
          Epoll.register s fd t i m
            = (.ok (), (fd, EpollEvent.new (make_flags i m)
                (usize_as_u64 (usize_from_token t))) :: s)
          ∧ Option.map event.token (watchGet (Epoll.register s fd t i m).2 fd) = some t)
      ∧ (watchHas s fd = true →
          (Epoll.reregister s fd t i m).1 = .ok ()
          ∧ Option.map event.token (watchGet (Epoll.reregister s fd t i m).2 fd) = some t) := by
  intro s fd t i m hlt
  have hmod : t.val % 2 ^ 64 = t.val := Nat.mod_eq_of_lt hlt
  have hid : event.token (EpollEvent.new (make_flags i m)
      (usize_as_u64 (usize_from_token t))) = t := by
    simp only [event.token, EpollEvent.new, u64_as_usize, usize_as_u64,
      usize_from_token, hmod]
  refine ⟨hid, ?_, ?_⟩
  · intro h
    have hreg : Epoll.register s fd t i m
        = (.ok (), (fd, EpollEvent.new (make_flags i m)
            (usize_as_u64 (usize_from_token t))) :: s) := by
      simp [Epoll.register, epoll_ctl, h]
    refine ⟨hreg, ?_⟩
    rw [hreg]
    rw [show ((Except.ok () : Except Errno Unit), (fd, EpollEvent.new (make_flags i m)
        (usize_as_u64 (usize_from_token t))) :: s).2
      = (fd, EpollEvent.new (make_flags i m) (usize_as_u64 (usize_from_token t))) :: s
      from rfl]
    rw [watchGet_cons_self]
    simp [hid]
  · intro h
    have hrer : Epoll.reregister s fd t i m
        = (.ok (), s.map (fun p => if p.1 == fd then
            (fd, EpollEvent.new (make_flags i m) (usize_as_u64 (usize_from_token t)))
          else p)) := by
      simp [Epoll.reregister, epoll_ctl, h]
    rw [hrer]
    refine ⟨rfl, ?_⟩
    rw [watchGet_update s fd _ h]
    simp [hid]

/-- C6 witness: token 7 round-trips through a concrete registration. -/
theorem token_roundtrip_witness :
    event.token (EpollEvent.new (make_flags .Readable .Level)
        (usize_as_u64 (usize_from_token ⟨7⟩))) = ⟨7⟩
    ∧ Option.map event.token (watchGet (Epoll.register [] 3 ⟨7⟩ .Readable .Level).2 3)
        = some ⟨7⟩ :=
  ⟨(token_roundtrip [] 3 ⟨7⟩ .Readable .Level (by decide)).1,
    ((token_roundtrip [] 3 ⟨7⟩ .Readable .Level (by decide)).2.1 (by decide)).2⟩

end Copoll
